import Mathlib

/-!
Shallow embedding of the rsp-restspawner spawn core.

Part 1 models the server-sent-event line decoder of
`src/rsp_restspawner/event.py` (`Event.from_lines`).  Python strings are
modelled as `List Char`; one input line of `from_lines` is one such list.
The decoder's three possible non-value outcomes (returning `None`, raising
`EventError`, and the `IndexError` raised by `line[0]` on an empty line)
are all reified in `FromLinesResult`.

Part 2 models `src/rsp_restspawner/spawner.py`: `SpawnEvent.from_sse`, the
streaming loop of `RSPRestSpawner._start`, `_get_internal_url`, `poll`,
`stop`, and the snapshot behaviour of `progress`.  HTTP responses are
modelled by their status code plus the parsed fields the code reads;
`raise_for_status` of the httpx client raises (is an error) exactly on
non-2xx status codes.
-/

namespace RspRestSpawner

/-- One decoded SSE event of `event.py` (`Event` dataclass): accumulated
data buffer and the event type, both Python strings. -/
structure EventC where
  data : List Char
  event_type : List Char
deriving DecidableEq, Repr

/-- The two `EventError` conditions raised by `Event.from_lines`:
receiving a second event-type declaration that differs from the current
non-empty one, and finishing a block with an empty current type. -/
inductive EventDecodeError where
  | conflict (newType oldType : List Char)
  | missingType (buffer : List Char)
deriving DecidableEq, Repr

/-- Every possible outcome of `Event.from_lines`: `None` for an empty
input list, a decoded event, a raised `EventError`, or the `IndexError`
raised by evaluating `line[0]` on an empty line. -/
inductive FromLinesResult where
  | noEvent
  | event (e : EventC)
  | decodeError (err : EventDecodeError)
  | indexError
deriving DecidableEq, Repr

/-- Split a Python string at the first colon, as `line.split(":", 1)`
does: `none` when the string has no colon, otherwise the parts before and
after the first colon. -/
def splitFirstColon : List Char → Option (List Char × List Char)
  | [] => none
  | c :: rest =>
      if c = ':' then some ([], rest)
      else
        match splitFirstColon rest with
        | none => none
        | some (f, v) => some (c :: f, v)

/-- Remove at most one leading space from a value, as the decoder does
after splitting (`if value and value[0] == " ": value = value[1:]`). -/
def stripOneSpace : List Char → List Char
  | ' ' :: rest => rest
  | v => v

/-- Field name and value of a non-comment line: split on the first colon
with one leading space stripped from the value; a line without a colon is
all field name with an empty value. -/
def parseField (line : List Char) : List Char × List Char :=
  match splitFirstColon line with
  | none => (line, [])
  | some (f, v) => (f, stripOneSpace v)

/-- The Python string "event". -/
def eventField : List Char := 'e' :: 'v' :: 'e' :: 'n' :: 't' :: []

/-- The Python string "data". -/
def dataField : List Char := 'd' :: 'a' :: 't' :: 'a' :: []

/-- The loop body of `Event.from_lines` over the remaining lines,
carrying the `current_type` and `databuffer` accumulators.  An empty line
is the `IndexError` of `line[0]`; a line starting with a colon is a
comment; an `event` field conflicts when the current type is non-empty
and differs from the new value; a `data` field appends value plus newline
to the buffer; other fields are ignored.  At the end of the lines an
empty current type raises the missing-event-type `EventError`. -/
def fromLinesGo (currentType databuffer : List Char) :
    List (List Char) → FromLinesResult
  | [] =>
      if currentType = [] then .decodeError (.missingType databuffer)
      else .event ⟨databuffer, currentType⟩
  | line :: rest =>
      match line with
      | [] => .indexError
      | c :: _ =>
          if c = ':' then fromLinesGo currentType databuffer rest
          else
            let fv := parseField line
            if fv.1 = eventField then
              if currentType ≠ [] ∧ currentType ≠ fv.2 then
                .decodeError (.conflict fv.2 currentType)
              else fromLinesGo fv.2 databuffer rest
            else if fv.1 = dataField then
              fromLinesGo currentType (databuffer ++ fv.2 ++ ['\n']) rest
            else fromLinesGo currentType databuffer rest

/-- `Event.from_lines`: `None` on an empty input list, otherwise the loop
from empty accumulators. -/
def from_lines (inp : List (List Char)) : FromLinesResult :=
  if inp = [] then .noEvent else fromLinesGo [] [] inp

/-- `Event.from_lines` applied to Lean string literals standing for the
Python input lines. -/
def fromLinesS (inp : List String) : FromLinesResult :=
  from_lines (inp.map String.toList)

/-- The values of the event-type declarations of a block, in order: for
each non-comment, non-empty line whose field is `event`, its value. -/
def declValues (inp : List (List Char)) : List (List Char) :=
  inp.filterMap fun line =>
    match line with
    | [] => none
    | c :: _ =>
        if c = ':' then none
        else
          let fv := parseField line
          if fv.1 = eventField then some fv.2 else none

/-- Whether a sequence of event-type declaration values never conflicts:
each declared value is accepted when the type declared just before it
(initially `ct`) is empty or equal to it. -/
def chainOK (ct : List Char) : List (List Char) → Bool
  | [] => true
  | v :: vs => (ct = [] || ct = v) && chainOK v vs

/-- The event type in effect after a block's declarations: the last
declared value, or the starting type when there is none. -/
def lastType (ct : List Char) (inp : List (List Char)) : List Char :=
  (declValues inp).getLastD ct

/-- Whether a decoder outcome is a raised conflict `EventError`. -/
def FromLinesResult.isConflict : FromLinesResult → Bool
  | .decodeError (.conflict _ _) => true
  | _ => false

/-- Whether a decoder outcome is a raised missing-event-type
`EventError`. -/
def FromLinesResult.isMissing : FromLinesResult → Bool
  | .decodeError (.missingType _) => true
  | _ => false

/-- Whether a decoder outcome is a raised `EventError` of either kind. -/
def FromLinesResult.isDecodeError : FromLinesResult → Bool
  | .decodeError _ => true
  | _ => false

/-- The error condition of claim C4 taken literally: (a) two different
non-empty event-type declarations occur in the block, or (b) the block is
non-empty and no event-type declaration occurs in it. -/
def claimC4ErrorCond (inp : List (List Char)) : Bool :=
  (let ds := (declValues inp).filter fun v => v ≠ []
   ds.any fun v => ds.any fun w => v ≠ w)
  || (inp ≠ [] && declValues inp = [])

/-! Part 2: `spawner.py`. -/

/-- The `LabStatus` string enum of `spawner.py`: possible status values
reported by the lab controller's status endpoint. -/
inductive LabStatus where
  | STARTING
  | RUNNING
  | TERMINATING
  | FAILED
deriving DecidableEq, Repr

/-- The string value of a `LabStatus` member (`str` enum, lowercase). -/
def LabStatus.val : LabStatus → String
  | .STARTING => "starting"
  | .RUNNING => "running"
  | .TERMINATING => "terminating"
  | .FAILED => "failed"

/-- The `SpawnEvent` dataclass: one JupyterHub spawning event. -/
structure SpawnEvent where
  progress : Int
  message : String
  severity : String
  complete : Bool := false
  failed : Bool := false
deriving DecidableEq, Repr

/-- The dictionary produced by `SpawnEvent.to_dict` for JupyterHub:
progress percentage and the severity-prefixed message. -/
structure JHMessage where
  progress : Int
  message : String
deriving DecidableEq, Repr

/-- `SpawnEvent.to_dict`. -/
def SpawnEvent.to_dict (e : SpawnEvent) : JHMessage :=
  ⟨e.progress, "[" ++ e.severity ++ "] " ++ e.message⟩

/-- The data payload of a server-sent event as `SpawnEvent.from_sse` sees
it.  `notJson raw` covers every payload for which `sse.json()` (or the
subsequent `.keys()` access) raises.  `jsonObj` is a decoded JSON object:
its optional string `message` value, its optional `progress` value (the
inner `Option Int` is `none` when `int()` of that value raises), whether
any key outside message/progress is present, and the raw payload text. -/
inductive SSEData where
  | notJson (raw : String)
  | jsonObj (message : Option String) (progressVal : Option (Option Int))
      (hasExtra : Bool) (raw : String)
deriving DecidableEq, Repr

/-- A server-sent event as delivered by `httpx_sse`: event type and data
payload. -/
structure SSE where
  event : String
  data : SSEData
deriving DecidableEq, Repr

/-- The try/except data normalization at the top of `SpawnEvent.from_sse`:
returns the message value (if any) and the progress value stored into
`data["progress"]`.  Any exception inside the `try` falls back to
`{"message": sse.data}`; note that an out-of-range progress value has
already been assigned to the local `progress` variable before the
`ValueError` is raised, so it leaks into the fallback dictionary. -/
def parseSSEData (d : SSEData) (progress : Int) : Option String × Int :=
  match d with
  | .notJson raw => (some raw, progress)
  | .jsonObj msg pv hasExtra raw =>
      if hasExtra then (some raw, progress)
      else
        match pv with
        | none => (msg, progress)
        | some none => (some raw, progress)
        | some (some n) =>
            if n < 0 ∨ 100 < n then (some raw, n) else (msg, n)

/-- `SpawnEvent.from_sse`.  `none` models the uncaught `TypeError` raised
by `cls(**data, ...)` when the normalized data has no message. -/
def SpawnEvent.from_sse (sse : SSE) (progress : Int) : Option SpawnEvent :=
  match parseSSEData sse.data progress with
  | (none, _) => none
  | (some m, prog) =>
      if sse.event = "complete" then some ⟨75, m, "info", true, false⟩
      else if sse.event = "info" then some ⟨prog, m, sse.event, false, false⟩
      else if sse.event = "error" then some ⟨prog, m, sse.event, false, false⟩
      else if sse.event = "failed" then some ⟨prog, m, "error", false, true⟩
      else some ⟨prog, m, "unknown", false, false⟩

/-- Whether a status code is a success for `httpx`'s
`Response.raise_for_status`, which raises on any non-2xx code. -/
def is2xx (code : Nat) : Bool :=
  200 ≤ code && code < 300

/-- The outcome of the event-streaming loop of `RSPRestSpawner._start`:
broke out on a `complete` event, raised `SpawnFailedError` on a `failed`
event, ran out of events (the stream closed), or hit an uncaught Python
error inside `SpawnEvent.from_sse`. -/
inductive StreamOutcome where
  | complete
  | failed (msg : String)
  | ended
  | pyError
deriving DecidableEq, Repr

/-- The `async for sse in self._get_progress_events(...)` loop of
`_start`, over the list of events the stream delivers: skip `ping`
events, convert each other event with `from_sse`, update the running
progress when the event's progress is truthy (non-zero), append the event
to `self._events`, break on `complete`, raise `SpawnFailedError` with the
event's message on `failed`. -/
def runStream (progress : Int) (log : List SpawnEvent) :
    List SSE → List SpawnEvent × StreamOutcome
  | [] => (log, .ended)
  | sse :: rest =>
      if sse.event = "ping" then runStream progress log rest
      else
        match SpawnEvent.from_sse sse progress with
        | none => (log, .pyError)
        | some ev =>
            let progress' := if ev.progress ≠ 0 then ev.progress else progress
            let log' := log ++ [ev]
            if ev.complete then (log', .complete)
            else if ev.failed then (log', .failed ev.message)
            else runStream progress' log' rest

/-- The lab-status response read by `_get_internal_url` (and `poll`):
status code, the `internal_url` JSON field (absent when the key is
missing), and the `status` JSON field as a string. -/
structure StatusResp where
  code : Nat
  internal_url : Option String
  status : String
deriving DecidableEq, Repr

/-- The result of `_start` (with `_convert_exception` applied): the lab
URL, a `ControllerWebError` wrapping an httpx error, a
`MissingFieldError`, a `SpawnFailedError` with the controller's failure
message, or an uncaught Python error. -/
inductive StartOutcome where
  | ok (url : String)
  | webError
  | missingField
  | spawnFailed (msg : String)
  | pyError
deriving DecidableEq, Repr

/-- `RSPRestSpawner._get_internal_url`: `raise_for_status`, then the
`internal_url` field; a missing or empty (falsy) field raises
`MissingFieldError`. -/
def getInternalUrl (resp : StatusResp) : StartOutcome :=
  if ¬ is2xx resp.code then .webError
  else
    match resp.internal_url with
    | none => .missingField
    | some u => if u = "" then .missingField else .ok u

/-- The event appended by `_start` when the create POST returns 409. -/
def conflictEvent : SpawnEvent :=
  ⟨75, "Lab already running", "info", false, false⟩

/-- The full result of one `_start` call: the final event log
(`self._events`), the outcome, and whether the events endpoint was
opened. -/
structure StartRun where
  log : List SpawnEvent
  outcome : StartOutcome
  streamed : Bool
deriving DecidableEq, Repr

/-- `RSPRestSpawner._start`, as a function of the create POST's status
code and (unread) response payload, of the lab-status response used by
`_get_internal_url`, and of the server-sent events the stream would
deliver.  A 409 create response appends `conflictEvent` and resolves via
`_get_internal_url` without streaming; any other non-2xx create response
raises through `raise_for_status`; otherwise the event stream is consumed
and, unless it ends in `SpawnFailedError` or an uncaught error, the final
URL again comes from `_get_internal_url`. -/
def startRun (createCode : Nat) (createBody : Option String)
    (resp : StatusResp) (es : List SSE) : StartRun :=
  if createCode = 409 then ⟨[conflictEvent], getInternalUrl resp, false⟩
  else if ¬ is2xx createCode then ⟨[], .webError, false⟩
  else
    match runStream 0 [] es with
    | (log, .complete) => ⟨log, getInternalUrl resp, true⟩
    | (log, .failed m) => ⟨log, .spawnFailed m, true⟩
    | (log, .ended) => ⟨log, getInternalUrl resp, true⟩
    | (log, .pyError) => ⟨log, .pyError, true⟩

/-- The tri-state result of `RSPRestSpawner.poll` as JupyterHub sees it:
an exit code, no exit code (still alive), or a raised
`ControllerWebError`. -/
inductive PollResult where
  | exitCode (n : Nat)
  | stillRunning
  | webError
deriving DecidableEq, Repr

/-- `RSPRestSpawner.poll`, as a function of the lab-status response's
code and `status` field: 404 is exit code 0; any other non-2xx code
raises through `raise_for_status`; otherwise exit code 1 exactly when the
status field equals the `FAILED` value. -/
def poll (code : Nat) (status : String) : PollResult :=
  if code = 404 then .exitCode 0
  else if ¬ is2xx code then .webError
  else if status = LabStatus.FAILED.val then .exitCode 1
  else .stillRunning

/-- The result of `RSPRestSpawner.stop`: normal return or a raised
`ControllerWebError`. -/
inductive StopResult where
  | ok
  | webError
deriving DecidableEq, Repr

/-- `RSPRestSpawner.stop`, as a function of the DELETE response's status
code: 404 is treated as success, anything else goes through
`raise_for_status`. -/
def stop (code : Nat) : StopResult :=
  if code = 404 then .ok
  else if ¬ is2xx code then .webError
  else .ok

/-- One wakeup of the `progress` loop: the value of
`self._start_future.done()` it observes and the length of the shared
event list at that moment. -/
structure Wakeup where
  done : Bool
  len : Nat
deriving DecidableEq, Repr

/-- The loop of `RSPRestSpawner.progress` run over the snapshots a
progress observer sees of the spawn attempt whose final event log is
`evs`.  Each iteration yields the `to_dict` of the events between the
observer's cursor and the snapshot length, then advances the cursor; an
iteration that observed `done` is the last one; an empty remaining
schedule models `asyncio.wait_for` timing out, which ends the iteration
without another sweep.  The function is total: the observer path does no
I/O and raises nothing. -/
def progressRun (evs : List SpawnEvent) (next : Nat) :
    List Wakeup → List JHMessage
  | [] => []
  | w :: rest =>
      (((evs.take w.len).drop next).map SpawnEvent.to_dict)
        ++ (if w.done then [] else progressRun evs w.len rest)

/-- The wakeup schedules a progress observer can actually see for an
attempt with final event log length `total`, starting with cursor `next`:
snapshot lengths never shrink (the log is append-only), intermediate
wakeups observe the attempt still pending, and the loop always ends with
a wakeup that observes the finished attempt — at that point the log is
complete, so the observed length is `total`.  This last wakeup is
guaranteed by `_start` setting every registered trigger in its `finally`
block after its last append. -/
inductive ValidSched (total : Nat) : Nat → List Wakeup → Prop
  | last (next : Nat) (h : next ≤ total) : ValidSched total next [⟨true, total⟩]
  | step (next len : Nat) (rest : List Wakeup) (h : next ≤ len)
      (hr : ValidSched total len rest) :
      ValidSched total next (⟨false, len⟩ :: rest)

/-! Theorems.  First the decoder lemmas, then the claims. -/

theorem dataField_ne_eventField : dataField ≠ eventField := by decide

theorem declValues_cons_comment (c : Char) (cs : List Char)
    (rest : List (List Char)) (hc : c = ':') :
    declValues ((c :: cs) :: rest) = declValues rest := by
  simp [declValues, hc]

theorem declValues_cons_event (c : Char) (cs : List Char)
    (rest : List (List Char)) (hc : ¬ c = ':')
    (hev : (parseField (c :: cs)).1 = eventField) :
    declValues ((c :: cs) :: rest) =
      (parseField (c :: cs)).2 :: declValues rest := by
  simp [declValues, hc, hev]

theorem declValues_cons_data (c : Char) (cs : List Char)
    (rest : List (List Char)) (hc : ¬ c = ':')
    (hdat : (parseField (c :: cs)).1 = dataField) :
    declValues ((c :: cs) :: rest) = declValues rest := by
  simp [declValues, hc, hdat, dataField_ne_eventField]

theorem declValues_cons_other (c : Char) (cs : List Char)
    (rest : List (List Char)) (hc : ¬ c = ':')
    (hev : ¬ (parseField (c :: cs)).1 = eventField) :
    declValues ((c :: cs) :: rest) = declValues rest := by
  simp [declValues, hc, hev]

theorem fromLinesGo_cons_comment (ct db : List Char) (c : Char)
    (cs : List Char) (rest : List (List Char)) (hc : c = ':') :
    fromLinesGo ct db ((c :: cs) :: rest) = fromLinesGo ct db rest := by
  simp [fromLinesGo, hc]

theorem fromLinesGo_cons_event_ok (ct db : List Char) (c : Char)
    (cs : List Char) (rest : List (List Char)) (hc : ¬ c = ':')
    (hev : (parseField (c :: cs)).1 = eventField)
    (hconf : ¬ (ct ≠ [] ∧ ct ≠ (parseField (c :: cs)).2)) :
    fromLinesGo ct db ((c :: cs) :: rest) =
      fromLinesGo (parseField (c :: cs)).2 db rest := by
  simp [fromLinesGo, hc, hev, hconf]

theorem fromLinesGo_cons_event_conflict (ct db : List Char) (c : Char)
    (cs : List Char) (rest : List (List Char)) (hc : ¬ c = ':')
    (hev : (parseField (c :: cs)).1 = eventField)
    (h1 : ct ≠ []) (h2 : ct ≠ (parseField (c :: cs)).2) :
    fromLinesGo ct db ((c :: cs) :: rest) =
      .decodeError (.conflict (parseField (c :: cs)).2 ct) := by
  simp [fromLinesGo, hc, hev, h1, h2]

theorem fromLinesGo_cons_data (ct db : List Char) (c : Char)
    (cs : List Char) (rest : List (List Char)) (hc : ¬ c = ':')
    (hdat : (parseField (c :: cs)).1 = dataField) :
    fromLinesGo ct db ((c :: cs) :: rest) =
      fromLinesGo ct (db ++ (parseField (c :: cs)).2 ++ ['\n']) rest := by
  simp [fromLinesGo, hc, hdat, dataField_ne_eventField]

theorem fromLinesGo_cons_other (ct db : List Char) (c : Char)
    (cs : List Char) (rest : List (List Char)) (hc : ¬ c = ':')
    (hev : ¬ (parseField (c :: cs)).1 = eventField)
    (hdat : ¬ (parseField (c :: cs)).1 = dataField) :
    fromLinesGo ct db ((c :: cs) :: rest) = fromLinesGo ct db rest := by
  simp [fromLinesGo, hc, hev, hdat]

theorem lastType_congr (ct : List Char) (inp inp2 : List (List Char))
    (v : List Char) (h : declValues inp = v :: declValues inp2) :
    lastType ct inp = lastType v inp2 := by
  simp only [lastType, h, List.getLastD_cons]

theorem lastType_congr_skip (ct : List Char) (inp inp2 : List (List Char))
    (h : declValues inp = declValues inp2) :
    lastType ct inp = lastType ct inp2 := by
  simp only [lastType, h]

theorem fromLinesGo_spec (lines : List (List Char)) :
    ∀ ct db : List Char, (∀ l ∈ lines, l ≠ []) →
      (((fromLinesGo ct db lines).isConflict = true ↔
          ¬ chainOK ct (declValues lines) = true) ∧
        ((fromLinesGo ct db lines).isMissing = true ↔
          chainOK ct (declValues lines) = true ∧ lastType ct lines = [])) := by
  induction lines with
  | nil =>
      intro ct db _
      by_cases hct : ct = [] <;>
        simp [fromLinesGo, hct, declValues, chainOK, lastType,
          FromLinesResult.isConflict, FromLinesResult.isMissing]
  | cons line rest ih =>
      intro ct db hne
      have hline : line ≠ [] := hne line (by simp)
      have hrest : ∀ l ∈ rest, l ≠ [] := fun l hl => hne l (by simp [hl])
      match line, hline with
      | c :: cs, _ =>
        by_cases hc : c = ':'
        · rw [fromLinesGo_cons_comment ct db c cs rest hc,
            declValues_cons_comment c cs rest hc,
            lastType_congr_skip ct _ rest (declValues_cons_comment c cs rest hc)]
          exact ih ct db hrest
        · by_cases hev : (parseField (c :: cs)).1 = eventField
          · by_cases hconf : ct ≠ [] ∧ ct ≠ (parseField (c :: cs)).2
            · obtain ⟨h1, h2⟩ := hconf
              rw [fromLinesGo_cons_event_conflict ct db c cs rest hc hev h1 h2,
                declValues_cons_event c cs rest hc hev]
              simp [chainOK, h1, h2, FromLinesResult.isConflict,
                FromLinesResult.isMissing]
            · have hok : (ct = [] ∨ ct = (parseField (c :: cs)).2) := by
                tauto
              have hchain : chainOK ct
                  (declValues ((c :: cs) :: rest)) =
                  chainOK (parseField (c :: cs)).2 (declValues rest) := by
                rw [declValues_cons_event c cs rest hc hev]
                rcases hok with h | h <;> simp [chainOK, h]
              rw [fromLinesGo_cons_event_ok ct db c cs rest hc hev hconf,
                hchain, lastType_congr ct _ rest (parseField (c :: cs)).2
                  (declValues_cons_event c cs rest hc hev)]
              exact ih (parseField (c :: cs)).2 db hrest
          · by_cases hdat : (parseField (c :: cs)).1 = dataField
            · rw [fromLinesGo_cons_data ct db c cs rest hc hdat,
                declValues_cons_data c cs rest hc hdat,
                lastType_congr_skip ct _ rest
                  (declValues_cons_data c cs rest hc hdat)]
              exact ih ct (db ++ (parseField (c :: cs)).2 ++ ['\n']) hrest
            · rw [fromLinesGo_cons_other ct db c cs rest hc hev hdat,
                declValues_cons_other c cs rest hc hev,
                lastType_congr_skip ct _ rest
                  (declValues_cons_other c cs rest hc hev)]
              exact ih ct db hrest

theorem fromLinesGo_no_indexError (lines : List (List Char)) :
    ∀ ct db : List Char, (∀ l ∈ lines, l ≠ []) →
      fromLinesGo ct db lines ≠ .indexError := by
  induction lines with
  | nil =>
      intro ct db _
      by_cases hct : ct = [] <;> simp [fromLinesGo, hct]
  | cons line rest ih =>
      intro ct db hne
      have hline : line ≠ [] := hne line (by simp)
      have hrest : ∀ l ∈ rest, l ≠ [] := fun l hl => hne l (by simp [hl])
      match line, hline with
      | c :: cs, _ =>
        by_cases hc : c = ':'
        · rw [fromLinesGo_cons_comment ct db c cs rest hc]
          exact ih ct db hrest
        · by_cases hev : (parseField (c :: cs)).1 = eventField
          · by_cases hconf : ct ≠ [] ∧ ct ≠ (parseField (c :: cs)).2
            · obtain ⟨h1, h2⟩ := hconf
              rw [fromLinesGo_cons_event_conflict ct db c cs rest hc hev h1 h2]
              simp
            · rw [fromLinesGo_cons_event_ok ct db c cs rest hc hev hconf]
              exact ih (parseField (c :: cs)).2 db hrest
          · by_cases hdat : (parseField (c :: cs)).1 = dataField
            · rw [fromLinesGo_cons_data ct db c cs rest hc hdat]
              exact ih ct (db ++ (parseField (c :: cs)).2 ++ ['\n']) hrest
            · rw [fromLinesGo_cons_other ct db c cs rest hc hev hdat]
              exact ih ct db hrest

theorem fromLinesGo_hits_empty_line (pre : List (List Char)) :
    ∀ ct db : List Char, ∀ post : List (List Char),
      (∀ l ∈ pre, l ≠ []) → chainOK ct (declValues pre) = true →
      fromLinesGo ct db (pre ++ [] :: post) = .indexError := by
  induction pre with
  | nil =>
      intro ct db post _ _
      simp [fromLinesGo]
  | cons line rest ih =>
      intro ct db post hne hchain
      have hline : line ≠ [] := hne line (by simp)
      have hrest : ∀ l ∈ rest, l ≠ [] := fun l hl => hne l (by simp [hl])
      match line, hline with
      | c :: cs, _ =>
        by_cases hc : c = ':'
        · have hchain2 : chainOK ct (declValues rest) = true := by
            rw [declValues_cons_comment c cs rest hc] at hchain
            exact hchain
          rw [List.cons_append, fromLinesGo_cons_comment ct db c cs _ hc]
          exact ih ct db post hrest hchain2
        · by_cases hev : (parseField (c :: cs)).1 = eventField
          · rw [declValues_cons_event c cs rest hc hev] at hchain
            simp only [chainOK, Bool.and_eq_true, Bool.or_eq_true,
              decide_eq_true_eq] at hchain
            have hconf : ¬(ct ≠ [] ∧ ct ≠ (parseField (c :: cs)).2) := by
              tauto
            rw [List.cons_append,
              fromLinesGo_cons_event_ok ct db c cs _ hc hev hconf]
            exact ih (parseField (c :: cs)).2 db post hrest hchain.2
          · by_cases hdat : (parseField (c :: cs)).1 = dataField
            · have hchain2 : chainOK ct (declValues rest) = true := by
                rw [declValues_cons_data c cs rest hc hdat] at hchain
                exact hchain
              rw [List.cons_append, fromLinesGo_cons_data ct db c cs _ hc hdat]
              exact ih ct (db ++ (parseField (c :: cs)).2 ++ ['\n']) post
                hrest hchain2
            · have hchain2 : chainOK ct (declValues rest) = true := by
                rw [declValues_cons_other c cs rest hc hev] at hchain
                exact hchain
              rw [List.cons_append,
                fromLinesGo_cons_other ct db c cs _ hc hev hdat]
              exact ih ct db post hrest hchain2

/-- C4 (amended): for a block of non-empty lines, `Event.from_lines`
raises the conflict `EventError` exactly when the block's event-type
declarations conflict — a declaration is rejected when the previously
declared type is non-empty and differs from it, even if the new value is
itself empty — and raises the missing-event-type `EventError` exactly
when there is no conflict, the block is non-empty, and the type in
effect after the last declaration (if any) is empty.  An empty block (no
lines) yields no event rather than an error. -/
theorem from_lines_error_characterization :
    ∀ inp : List (List Char), (∀ l ∈ inp, l ≠ []) →
      (((from_lines inp).isConflict = true ↔
          ¬ chainOK [] (declValues inp) = true) ∧
        ((from_lines inp).isMissing = true ↔
          inp ≠ [] ∧ chainOK [] (declValues inp) = true ∧
            lastType [] inp = []) ∧
        from_lines [] = .noEvent) := by
  intro inp hne
  by_cases h : inp = []
  · subst h
    simp [from_lines, declValues, chainOK, FromLinesResult.isConflict,
      FromLinesResult.isMissing]
  · refine ⟨?_, ?_, rfl⟩
    · simpa [from_lines, h] using (fromLinesGo_spec inp [] [] hne).1
    · simpa [from_lines, h] using (fromLinesGo_spec inp [] [] hne).2

/-- Witness for C4: a block with a `data` line and no event-type
declaration raises the missing-event-type error. -/
theorem from_lines_error_characterization_witness :
    (from_lines (["data: x"].map String.toList)).isMissing = true :=
  ((from_lines_error_characterization (["data: x"].map String.toList)
      (by decide)).2.1).mpr (by decide)

/-- Counterexample for C4 as frozen: on the block
`["event: a", "event:"]` the decoder raises the conflict `EventError`
although the block does not contain two different non-empty event-type
declarations and does declare an event type — the frozen claim predicts
no decoding error here. -/
theorem from_lines_error_counterexample :
    fromLinesS ["event: a", "event:"] =
      .decodeError (.conflict [] ['a']) ∧
    claimC4ErrorCond (["event: a", "event:"].map String.toList) = false := by
  exact ⟨by decide, by decide⟩

/-- C5: the three-line block `event: info / data: hello / data: world`
decodes to exactly one event with type `info` and data
`hello\nworld\n`; in general a `data` line appends its value (with at
most one leading space stripped) plus a newline to the buffer, comment
lines beginning with a colon are skipped, and lines with any other field
name are ignored. -/
theorem from_lines_round_trip :
    fromLinesS ["event: info", "data: hello", "data: world"] =
      .event ⟨"hello\nworld\n".toList, "info".toList⟩ ∧
    (∀ (ct db : List Char) (rest : List (List Char)) (v : List Char),
        fromLinesGo ct db ((dataField ++ ':' :: v) :: rest) =
          fromLinesGo ct (db ++ stripOneSpace v ++ ['\n']) rest) ∧
    (∀ (ct db : List Char) (rest : List (List Char)) (cs : List Char),
        fromLinesGo ct db ((':' :: cs) :: rest) =
          fromLinesGo ct db rest) ∧
    (∀ (ct db : List Char) (rest : List (List Char)) (line : List Char)
        (c : Char), c ≠ ':' →
        (parseField (c :: line)).1 ≠ eventField →
        (parseField (c :: line)).1 ≠ dataField →
        fromLinesGo ct db ((c :: line) :: rest) = fromLinesGo ct db rest) := by
  refine ⟨by decide, ?_, ?_, ?_⟩
  · intro ct db rest v
    simp [fromLinesGo, parseField, splitFirstColon, dataField, eventField]
  · intro ct db rest cs
    simp [fromLinesGo]
  · intro ct db rest line c hc hev hdat
    simp [fromLinesGo, hc, hev, hdat]

/-- Witness for C5: a `retry` line is ignored. -/
theorem from_lines_round_trip_witness :
    fromLinesGo "info".toList [] (('r' :: "etry: 5".toList) :: []) =
      fromLinesGo "info".toList [] [] :=
  from_lines_round_trip.2.2.2 "info".toList [] [] "etry: 5".toList 'r'
    (by decide) (by decide) (by decide)

/-- C10 (amended): on a block whose lines are all non-empty,
`Event.from_lines` never raises `IndexError`; and for any input of the
form `pre ++ [""] ++ post` where the lines of `pre` are non-empty and
contain no event-type conflict, `from_lines` raises `IndexError` at the
first character of the empty line.  (When a conflict occurs among the
declarations of `pre`, the conflict `EventError` is raised before the
empty line is reached.) -/
theorem from_lines_empty_line_crash :
    (∀ inp : List (List Char), (∀ l ∈ inp, l ≠ []) →
        from_lines inp ≠ .indexError) ∧
    (∀ pre post : List (List Char), (∀ l ∈ pre, l ≠ []) →
        chainOK [] (declValues pre) = true →
        from_lines (pre ++ [] :: post) = .indexError) := by
  constructor
  · intro inp hne
    by_cases h : inp = []
    · simp [from_lines, h]
    · simpa [from_lines, h] using fromLinesGo_no_indexError inp [] [] hne
  · intro pre post hne hchain
    have hne2 : pre ++ [] :: post ≠ [] := by
      cases pre <;> simp
    simpa [from_lines, hne2] using
      fromLinesGo_hits_empty_line pre [] [] post hne hchain

/-- Witness for C10: a block consisting of a valid event line followed
by an empty line crashes with `IndexError`. -/
theorem from_lines_empty_line_crash_witness :
    from_lines (["event: a".toList] ++ [] :: []) = .indexError :=
  from_lines_empty_line_crash.2 ["event: a".toList] [] (by decide) (by decide)

/-- Counterexample for C10 as frozen: the input
`["event: a", "event: b", ""]` contains the empty string, yet
`from_lines` raises the conflict `EventError` (a decoder error), not the
out-of-bounds `IndexError` the frozen claim predicts for every input
containing an empty line. -/
theorem from_lines_empty_line_counterexample :
    fromLinesS ["event: a", "event: b", ""] =
      .decodeError (.conflict ['b'] ['a']) ∧
    "" ∈ ["event: a", "event: b", ""] := by
  exact ⟨by decide, by decide⟩

theorem take_drop_append {α : Type} (evs : List α) (n len : Nat)
    (h : n ≤ len) :
    (evs.take len).drop n ++ evs.drop len = evs.drop n := by
  have h2 : (evs.drop n).drop (len - n) = evs.drop len := by
    rw [List.drop_drop]
    congr 1
    omega
  rw [List.drop_take, ← h2, List.take_append_drop]

theorem progressRun_eq_drop (evs : List SpawnEvent) :
    ∀ (next : Nat) (sched : List Wakeup),
      ValidSched evs.length next sched →
      progressRun evs next sched = (evs.drop next).map SpawnEvent.to_dict := by
  intro next sched h
  induction h with
  | last n hn => simp [progressRun, List.take_length]
  | step n len rest h1 hr ih =>
      simp only [progressRun, Bool.false_eq_true, if_false]
      rw [ih, ← List.map_append, take_drop_append evs n len h1]

theorem from_sse_failed_shape (sse : SSE) (p : Int) (ev : SpawnEvent)
    (hev : sse.event = "failed") (hfs : SpawnEvent.from_sse sse p = some ev) :
    ev.failed = true ∧ ev.complete = false := by
  unfold SpawnEvent.from_sse at hfs
  rcases hpd : parseSSEData sse.data p with ⟨msg, prog⟩
  rw [hpd] at hfs
  cases msg with
  | none => simp at hfs
  | some m2 =>
      simp only [] at hfs
      split_ifs at hfs with h1 h2 h3
      · rw [hev] at h1
        exact absurd h1 (by decide)
      · rw [hev] at h2
        exact absurd h2 (by decide)
      · rw [hev] at h3
        exact absurd h3 (by decide)
      · injection hfs with h5
        rw [← h5]
        exact ⟨rfl, rfl⟩

theorem from_sse_not_both (sse : SSE) (p : Int) (ev : SpawnEvent)
    (h : SpawnEvent.from_sse sse p = some ev) :
    ¬(ev.complete = true ∧ ev.failed = true) := by
  unfold SpawnEvent.from_sse at h
  rcases hpd : parseSSEData sse.data p with ⟨msg, prog⟩
  rw [hpd] at h
  cases msg with
  | none => simp at h
  | some m2 =>
      simp only [] at h
      split_ifs at h <;> (injection h with h2) <;> rw [← h2] <;> simp

theorem runStream_log_invariant (es : List SSE) :
    ∀ (p : Int) (log : List SpawnEvent),
      (∀ e ∈ log, e.complete = false ∧ e.failed = false) →
      (∀ e ∈ (runStream p log es).1,
          ¬(e.complete = true ∧ e.failed = true)) ∧
      (∀ e ∈ (runStream p log es).1.dropLast,
          e.complete = false ∧ e.failed = false) := by
  induction es with
  | nil =>
      intro p log hlog
      refine ⟨?_, ?_⟩
      · intro e he
        have he2 : e ∈ log := by simpa [runStream] using he
        have := hlog e he2
        simp [this.1, this.2]
      · intro e he
        have he2 : e ∈ log.dropLast := by simpa [runStream] using he
        exact hlog e ((List.dropLast_sublist log).subset he2)
  | cons sse rest ih =>
      intro p log hlog
      by_cases hping : sse.event = "ping"
      · simpa [runStream, hping] using ih p log hlog
      · rcases hfs : SpawnEvent.from_sse sse p with _ | ev
        · refine ⟨?_, ?_⟩
          · intro e he
            have he2 : e ∈ log := by simpa [runStream, hping, hfs] using he
            have := hlog e he2
            simp [this.1, this.2]
          · intro e he
            have he2 : e ∈ log.dropLast := by
              simpa [runStream, hping, hfs] using he
            exact hlog e ((List.dropLast_sublist log).subset he2)
        · by_cases hcomp : ev.complete = true
          · have hres : (runStream p log (sse :: rest)).1 = log ++ [ev] := by
              simp [runStream, hping, hfs, hcomp]
            refine ⟨?_, ?_⟩
            · intro e he
              rw [hres] at he
              rcases List.mem_append.mp he with h | h
              · have := hlog e h
                simp [this.1, this.2]
              · have heq : e = ev := by simpa using h
                rw [heq]
                exact from_sse_not_both sse p ev hfs
            · intro e he
              rw [hres, List.dropLast_concat] at he
              exact hlog e he
          · by_cases hfail : ev.failed = true
            · have hres : (runStream p log (sse :: rest)).1 = log ++ [ev] := by
                simp [runStream, hping, hfs, hcomp, hfail]
              refine ⟨?_, ?_⟩
              · intro e he
                rw [hres] at he
                rcases List.mem_append.mp he with h | h
                · have := hlog e h
                  simp [this.1, this.2]
                · have heq : e = ev := by simpa using h
                  rw [heq]
                  exact from_sse_not_both sse p ev hfs
              · intro e he
                rw [hres, List.dropLast_concat] at he
                exact hlog e he
            · have hev2 : ev.complete = false ∧ ev.failed = false := by
                refine ⟨?_, ?_⟩
                · rcases Bool.eq_false_or_eq_true ev.complete with h | h
                  · exact absurd h hcomp
                  · exact h
                · rcases Bool.eq_false_or_eq_true ev.failed with h | h
                  · exact absurd h hfail
                  · exact h
              have hlog2 : ∀ e ∈ log ++ [ev],
                  e.complete = false ∧ e.failed = false := by
                intro e he
                rcases List.mem_append.mp he with h | h
                · exact hlog e h
                · have heq : e = ev := by simpa using h
                  rw [heq]
                  exact hev2
              have hres : runStream p log (sse :: rest) =
                  runStream (if ev.progress ≠ 0 then ev.progress else p)
                    (log ++ [ev]) rest := by
                simp [runStream, hping, hfs, hcomp, hfail]
              rw [hres]
              exact ih _ _ hlog2

/-- C1 (amended): when the create POST returns 409, `_start` appends the
conflict event and resolves the attempt entirely through the
admin-authenticated status GET, never opening the event stream: if the
GET returns a non-empty internal URL the attempt completes with that
URL, but if the GET succeeds without an internal URL the attempt fails
with `MissingFieldError` (and if the GET itself fails, with
`ControllerWebError`) rather than proceeding to the event stream.
Redirect statuses of the create POST are not special-cased: like every
other non-2xx, non-409 status they raise `ControllerWebError` without
the status GET or streaming. -/
theorem start_conflict_resolution :
    ∀ (body : Option String) (resp : StatusResp) (es : List SSE),
      startRun 409 body resp es =
        ⟨[conflictEvent], getInternalUrl resp, false⟩ ∧
      (∀ u, is2xx resp.code = true → resp.internal_url = some u → u ≠ "" →
          (startRun 409 body resp es).outcome = .ok u) ∧
      (is2xx resp.code = true → resp.internal_url = none →
          (startRun 409 body resp es).outcome = .missingField) ∧
      (∀ c, 300 ≤ c → c < 400 →
          startRun c body resp es = ⟨[], .webError, false⟩) := by
  intro body resp es
  refine ⟨rfl, ?_, ?_, ?_⟩
  · intro u h hu hne
    simp [startRun, getInternalUrl, h, hu, hne]
  · intro h hu
    simp [startRun, getInternalUrl, h, hu]
  · intro c h1 h2
    have hne : c ≠ 409 := by omega
    have hlt : ¬ (c < 300) := by omega
    simp [startRun, hne, is2xx, hlt]

/-- Witness for C1: a 409 with a status GET carrying an internal URL
completes with that URL. -/
theorem start_conflict_resolution_witness :
    (startRun 409 none ⟨200, some "http://lab:8888", "running"⟩ []).outcome =
      .ok "http://lab:8888" :=
  (start_conflict_resolution none ⟨200, some "http://lab:8888", "running"⟩
      []).2.1 "http://lab:8888" (by decide) rfl (by decide)

/-- Counterexample for C1 as frozen: a 409 create response whose
follow-up status GET returns 200 without an internal URL makes `_start`
raise `MissingFieldError` without ever opening the event stream — the
frozen claim says this case proceeds to consuming the event stream and
is never treated as a failure. -/
theorem start_conflict_counterexample :
    (startRun 409 none ⟨200, none, "starting"⟩
        [⟨"complete", .notJson "done"⟩]).streamed = false ∧
    (startRun 409 none ⟨200, none, "starting"⟩
        [⟨"complete", .notJson "done"⟩]).outcome = .missingField := by
  exact ⟨by decide, by decide⟩

/-- C2 (amended): after any 2xx create response, `_start` always opens
and consumes the event stream; the create response's payload is never
inspected (the run is identical for any two payloads), and the final URL
comes from the separate admin status GET, not from the create
payload. -/
theorem start_success_always_streams :
    ∀ (code : Nat) (b1 b2 : Option String) (resp : StatusResp)
      (es : List SSE), is2xx code = true →
      (startRun code b1 resp es).streamed = true ∧
      startRun code b1 resp es = startRun code b2 resp es := by
  intro code b1 b2 resp es h
  have hne : code ≠ 409 := by
    intro hh
    subst hh
    exact absurd h (by decide)
  refine ⟨?_, ?_⟩
  · rcases hrs : runStream 0 [] es with ⟨log, out⟩
    cases out <;> simp [startRun, hne, h, hrs]
  · simp [startRun, hne]

/-- Witness for C2: a 201 create response leads to streaming. -/
theorem start_success_always_streams_witness :
    (startRun 201 none ⟨200, some "http://lab:8888", "running"⟩
        []).streamed = true :=
  (start_success_always_streams 201 none none
      ⟨200, some "http://lab:8888", "running"⟩ [] (by decide)).1

/-- Counterexample for C2 as frozen: a 200 create response whose payload
contains the internal URL `http://payload:8888` still opens the event
stream, and the URL `_start` returns is the one from the status GET
(`http://status:8888`), not the create payload's — the frozen claim says
such an attempt completes immediately with the payload URL and never
opens the event stream. -/
theorem start_success_counterexample :
    (startRun 200 (some "http://payload:8888")
        ⟨200, some "http://status:8888", "running"⟩
        [⟨"complete", .notJson "done"⟩]).streamed = true ∧
    (startRun 200 (some "http://payload:8888")
        ⟨200, some "http://status:8888", "running"⟩
        [⟨"complete", .notJson "done"⟩]).outcome = .ok "http://status:8888" := by
  exact ⟨by decide, by decide⟩

/-- C3: over any valid wakeup schedule — snapshot lengths non-decreasing
and the iteration ending at the first wakeup that observes the finished
start task, at which point the log is complete — an observer of the
`progress` loop yields exactly the attempt's events, mapped by
`to_dict`, in append order starting from offset zero, regardless of how
late it attached or how the appends interleave with its sweeps.  The
iteration is a total function of the schedule (it does no I/O of its
own, raises nothing, and terminates once the start task finishes). -/
theorem progress_observer_replays_full_log :
    ∀ (evs : List SpawnEvent) (sched : List Wakeup),
      ValidSched evs.length 0 sched →
      progressRun evs 0 sched = evs.map SpawnEvent.to_dict := by
  intro evs sched h
  simpa using progressRun_eq_drop evs 0 sched h

/-- Witness for C3: a late-attaching observer catching up in three
sweeps over a three-event attempt sees all three events in order. -/
theorem progress_observer_replays_full_log_witness :
    progressRun
      [⟨2, "Lab creation initiated", "info", false, false⟩,
        ⟨45, "Pod requested", "info", false, false⟩,
        ⟨75, "Pod spawned", "info", true, false⟩] 0
      [⟨false, 1⟩, ⟨false, 2⟩, ⟨true, 3⟩] =
      [⟨2, "Lab creation initiated", "info", false, false⟩,
        ⟨45, "Pod requested", "info", false, false⟩,
        ⟨75, "Pod spawned", "info", true, false⟩].map SpawnEvent.to_dict :=
  progress_observer_replays_full_log _ _
    (ValidSched.step 0 1 _ (by omega)
      (ValidSched.step 1 2 _ (by omega) (ValidSched.last 2 (by decide))))

/-- C6 (amended): `poll` maps a 404 status response to exit code 0, any
2xx response whose status field is the `FAILED` value to exit code 1,
any 2xx response with a different status field to "no exit code", and
any remaining status code (non-2xx and not 404) to a raised
`ControllerWebError`.  (Every 2xx code is accepted by
`raise_for_status`, not only 200.) -/
theorem poll_status_mapping :
    ∀ (code : Nat) (status : String),
      poll 404 status = .exitCode 0 ∧
      (is2xx code = true → poll code LabStatus.FAILED.val = .exitCode 1) ∧
      (is2xx code = true → status ≠ LabStatus.FAILED.val →
          poll code status = .stillRunning) ∧
      (is2xx code = false → code ≠ 404 → poll code status = .webError) := by
  intro code status
  refine ⟨by simp [poll], ?_, ?_, ?_⟩
  · intro h
    have hne : code ≠ 404 := by
      intro hh
      subst hh
      exact absurd h (by decide)
    simp [poll, hne, h]
  · intro h hs
    have hne : code ≠ 404 := by
      intro hh
      subst hh
      exact absurd h (by decide)
    simp [poll, hne, h, hs]
  · intro h hne
    simp [poll, hne, h]

/-- Witness for C6: a 200 response in `FAILED` status polls as exit
code 1. -/
theorem poll_status_mapping_witness :
    poll 200 LabStatus.FAILED.val = .exitCode 1 :=
  (poll_status_mapping 200 "unused").2.1 (by decide)

/-- Counterexample for C6 as frozen: a 201 response with status
`running` is interpreted as "still alive" instead of raising, although
201 is neither 404 nor 200 — the frozen claim says every such status
raises an error from `poll`. -/
theorem poll_status_counterexample :
    poll 201 LabStatus.RUNNING.val = .stillRunning ∧
    (201 : Nat) ≠ 404 ∧ (201 : Nat) ≠ 200 := by
  exact ⟨by decide, by decide, by decide⟩

/-- C7: `stop` treats a 404 DELETE response as success, outwardly
identical to the 202 returned for deleting an existing lab; every 2xx
succeeds and every other non-2xx response raises
`ControllerWebError`. -/
theorem stop_idempotent :
    stop 404 = .ok ∧
    (∀ c, is2xx c = true → stop c = .ok) ∧
    stop 404 = stop 202 ∧
    (∀ c, is2xx c = false → c ≠ 404 → stop c = .webError) := by
  refine ⟨by decide, ?_, by decide, ?_⟩
  · intro c h
    by_cases h404 : c = 404
    · simp [stop, h404]
    · simp [stop, h404, h]
  · intro c h hne
    simp [stop, hne, h]

/-- Witness for C7: a 500 DELETE response makes `stop` raise. -/
theorem stop_idempotent_witness :
    stop 500 = .webError :=
  stop_idempotent.2.2.2 500 (by decide) (by decide)

/-- C8: when a `failed` event arrives on the stream (and `from_sse`
converts it without crashing), the streaming loop appends exactly one
terminal event with `failed = true` (and `complete = false`) carrying
the event's message, and stops there; and when the loop of a 2xx spawn
ends that way, `_start` raises `SpawnFailedError` whose detail is that
same message. -/
theorem failed_event_appends_and_raises :
    (∀ (p : Int) (log : List SpawnEvent) (sse : SSE) (rest : List SSE)
        (ev : SpawnEvent), sse.event = "failed" →
        SpawnEvent.from_sse sse p = some ev →
        runStream p log (sse :: rest) = (log ++ [ev], .failed ev.message) ∧
        ev.failed = true ∧ ev.complete = false) ∧
    (∀ (code : Nat) (body : Option String) (resp : StatusResp)
        (es : List SSE) (log : List SpawnEvent) (m : String),
        is2xx code = true → runStream 0 [] es = (log, .failed m) →
        startRun code body resp es = ⟨log, .spawnFailed m, true⟩) := by
  refine ⟨?_, ?_⟩
  · intro p log sse rest ev hev hfs
    have hpair := from_sse_failed_shape sse p ev hev hfs
    have hping : ¬ sse.event = "ping" := by
      rw [hev]
      decide
    refine ⟨?_, hpair.1, hpair.2⟩
    simp [runStream, hping, hfs, hpair.1, hpair.2]
  · intro code body resp es log m h2xx hrs
    have hne : code ≠ 409 := by
      intro hh
      subst hh
      exact absurd h2xx (by decide)
    simp [startRun, hne, h2xx, hrs]

/-- Witness for C8: a `failed` event with plain-text data `boom` is
appended as a terminal failed event and the loop reports the failure
with that message. -/
theorem failed_event_appends_and_raises_witness :
    runStream 0 [] [⟨"failed", .notJson "boom"⟩] =
      ([] ++ [⟨0, "boom", "error", false, true⟩], .failed "boom") ∧
    (⟨0, "boom", "error", false, true⟩ : SpawnEvent).failed = true ∧
    (⟨0, "boom", "error", false, true⟩ : SpawnEvent).complete = false :=
  failed_event_appends_and_raises.1 0 [] ⟨"failed", .notJson "boom"⟩ []
    ⟨0, "boom", "error", false, true⟩ rfl (by decide)

/-- C9: in every `_start` run, no event of the attempt's log has
`complete` and `failed` both true, and every event before the last one
has both flags false — so once a terminal event is appended, no further
event follows it. -/
theorem spawn_events_terminal_invariant :
    ∀ (code : Nat) (body : Option String) (resp : StatusResp)
      (es : List SSE),
      (∀ e ∈ (startRun code body resp es).log,
          ¬(e.complete = true ∧ e.failed = true)) ∧
      (∀ e ∈ (startRun code body resp es).log.dropLast,
          e.complete = false ∧ e.failed = false) := by
  intro code body resp es
  by_cases h409 : code = 409
  · refine ⟨?_, ?_⟩
    · intro e he
      have heq : e = conflictEvent := by simpa [startRun, h409] using he
      rw [heq]
      decide
    · intro e he
      simp [startRun, h409] at he
  · by_cases h2xx : is2xx code = true
    · have hlog : (startRun code body resp es).log = (runStream 0 [] es).1 := by
        rcases hrs : runStream 0 [] es with ⟨log, out⟩
        cases out <;> simp [startRun, h409, h2xx, hrs]
      rw [hlog]
      exact runStream_log_invariant es 0 [] (by simp)
    · refine ⟨?_, ?_⟩ <;> intro e he <;>
        simp [startRun, h409, h2xx] at he

/-- Witness for C9: the conflict event of a 409 run satisfies the
mutual-exclusion invariant. -/
theorem spawn_events_terminal_invariant_witness :
    ¬(conflictEvent.complete = true ∧ conflictEvent.failed = true) :=
  (spawn_events_terminal_invariant 409 none ⟨200, none, "running"⟩ []).1
    conflictEvent (by decide)

end RspRestSpawner
